import Mathlib

/-!
# x68kzrmtdsk-pico: connection coordinator and virtual disk binder

A shallow embedding of `src/src/connect.c` (`connection`, `vd_mount`) and of
`struct zusb_rmtdata` from `src/driver/zusbcomm.h`, followed by the properties
proved about them.

Conventions of the embedding.

* C pointers are `Option Nat`: `none` is `NULL`, `some n` is a non-null pointer.
  A pointer into the `diskinfo` array is the index of the element it refers to.
* The results of the calls into the radio driver, libsmb2 and the SDK are inputs
  of the model (`ConnEnv`, `World`).
* Every store to the volatile `sysstatus` and every external call is appended
  to a ghost log (`State.log`), in program order.
* `main.h` and `virtual_disk.h` are not part of the sources at hand; the
  constants and field widths they define are parameters (`Params`) or are
  modelled from the specification where stated.
-/

namespace X68kRmtDsk

/-! ## Data model -/

/-- The values `sysstatus` takes (the `STAT_` constants used in `connect.c`). -/
inductive Status
  | STAT_WIFI_DISCONNECTED
  | STAT_WIFI_CONNECTING
  | STAT_WIFI_CONNECTED
  | STAT_SMB2_CONNECTING
  | STAT_SMB2_CONNECTED
  | STAT_SMB2_CONNECTED_SAFE
  | STAT_CONFIGURED
  deriving DecidableEq, Repr

open Status

/-- Modelled from the spec: the numeric values of the `STAT_` constants are
defined in `main.h`, which is missing; the specification orders the stages
`Disconnected → RadioConnecting → RadioConnected → SessionConnecting →
SessionConnected → SessionConnectedSafe → Configured`. -/
def Status.rank : Status → Nat
  | STAT_WIFI_DISCONNECTED => 0
  | STAT_WIFI_CONNECTING => 1
  | STAT_WIFI_CONNECTED => 2
  | STAT_SMB2_CONNECTING => 3
  | STAT_SMB2_CONNECTED => 4
  | STAT_SMB2_CONNECTED_SAFE => 5
  | STAT_CONFIGURED => 6

/-- The argument of `connection`: the three `case` labels of its `switch`
(pairwise distinct, as C requires of case labels) and any other value, which
takes the `default:` branch. -/
inductive Mode
  | CONNECT_WIFI
  | CONNECT_WIFI_FAST
  | CONNECT_SMB2
  | other
  deriving DecidableEq, Repr

open Mode

/-- The `smb2_type` field of `struct smb2_stat_64` (libsmb2). -/
inductive Smb2Type
  | SMB2_TYPE_FILE
  | SMB2_TYPE_DIRECTORY
  | SMB2_TYPE_LINK
  deriving DecidableEq, Repr

open Smb2Type

/-- Ghost events: stores to the volatile `sysstatus` and external calls. The
library entry points `smb2_close` and `disconnect_smb2` release a file handle
and a session. -/
inductive Event
  | store (v : Status)
  | wifi_connect
  | connect_smb2
  | smb2_get_system_time
  | get_absolute_time
  | disconnect_smb2 (session : Nat)
  | vTaskDelay
  | connect_smb2_path
  | smb2_stat
  | smb2_open (result : Option Nat)
  | smb2_close (handle : Nat)
  deriving DecidableEq, Repr

/-- One element of `struct diskinfo diskinfo[7]`: the fields `connect.c` uses. -/
structure DiskInfo where
  smb2 : Option Nat
  sfh : Option Nat
  size : Nat
  sects : Nat
  deriving DecidableEq, Repr

/-- The all-zero `struct diskinfo` of a zero-initialised global. -/
def DiskInfo.zero : DiskInfo := ⟨none, none, 0, 0⟩

/-- Constants and field widths declared in the missing headers: `N_HDS`,
`N_REMOTE`, `SECTOR_SIZE`, and the widths in bits of the unsigned fields
`diskinfo.size` and `diskinfo.sects`. -/
structure Params where
  N_HDS : Nat
  N_REMOTE : Nat
  SECTOR_SIZE : Nat
  sizeBits : Nat
  sectsBits : Nat
  deriving DecidableEq, Repr

/-- The global variables of `connect.c` and the ghost state. `hdsinfo u` is
`hdsinfo[u].disk`. `disk_oob` and `root_oob` record a store outside
`diskinfo[7]` and outside `rootsmb2[N_REMOTE]`: undefined behaviour in C. -/
structure State where
  boottime : Nat
  sysstatus : Status
  rootpath : Nat → Option String
  rootsmb2 : Nat → Option Nat
  hdsinfo : Nat → Option Nat
  diskinfo : Nat → DiskInfo
  log : List Event
  disk_oob : Bool
  root_oob : Bool

/-- The state at boot: the initialisers of the globals, everything else zero. -/
def State.boot : State where
  boottime := 0
  sysstatus := STAT_WIFI_DISCONNECTED
  rootpath := fun _ => none
  rootsmb2 := fun _ => none
  hdsinfo := fun _ => none
  diskinfo := fun _ => DiskInfo.zero
  log := []
  disk_oob := false
  root_oob := false

/-- Record an external call in the ghost log. -/
def call (s : State) (e : Event) : State := { s with log := s.log ++ [e] }

/-- The statement `sysstatus = v;`. -/
def setStatus (s : State) (v : Status) : State :=
  { s with sysstatus := v, log := s.log ++ [Event.store v] }

/-- The values stored to `sysstatus`, in program order. -/
def statusWrites : List Event → List Status
  | [] => []
  | Event.store v :: l => v :: statusWrites l
  | _ :: l => statusWrites l

/-! ## `connection` -/

/-- The results of the external calls `connection` makes. -/
structure ConnEnv where
  /-- The value of `strlen(config.wifi_ssid)`. -/
  ssid_len : Nat
  /-- The value of `cyw43_arch_wifi_connect_timeout_ms(...)`: 0 is success. -/
  wifi_connect : Int
  /-- The value of `strlen(config.smb2_server)`. -/
  server_len : Nat
  /-- The value of `connect_smb2("IPC$")`. -/
  connect_ipc : Option Nat
  /-- The value of `smb2_get_system_time(smb2ipc)`, a `uint64_t`. -/
  system_time : Nat
  /-- The value of `to_us_since_boot(get_absolute_time())` on line 110. -/
  us_since_boot : Nat
  deriving DecidableEq, Repr

/-- Subtraction of unsigned 64-bit integers: the result is reduced modulo
2^64. -/
def subU64 (a b : Nat) : Nat := (a % 2 ^ 64 + 2 ^ 64 - b % 2 ^ 64) % 2 ^ 64

/-- The right-hand side of line 110,
`(smb2_get_system_time(smb2ipc) / 10) - (11644473600 * 1000000) - to_us_since_boot(...)`.
The first and last operands are `uint64_t`; the constant is a `long long`
product that does not overflow and is converted to `uint64_t`; the two
subtractions are carried out left to right in `uint64_t`. -/
def boottimeOf (system_time us_since_boot : Nat) : Nat :=
  subU64 (subU64 (system_time % 2 ^ 64 / 10) (11644473600 * 1000000))
    (us_since_boot % 2 ^ 64)

/-- Lines 93-120: the code from `case CONNECT_SMB2:` to the end of the switch. -/
def connectionSmb2 (mode : Mode) (e : ConnEnv) (s : State) : State :=
  if e.server_len = 0 then s
  else
    let s := setStatus s STAT_SMB2_CONNECTING
    let s := call s Event.connect_smb2
    match e.connect_ipc with
    | none => setStatus s STAT_WIFI_CONNECTED
    | some smb2ipc =>
      let s := setStatus s STAT_SMB2_CONNECTED
      let s := call (call s Event.smb2_get_system_time) Event.get_absolute_time
      let s := { s with boottime := boottimeOf e.system_time e.us_since_boot }
      let s := call s Event.get_absolute_time
      let s := call s (Event.disconnect_smb2 smb2ipc)
      if mode ≠ CONNECT_WIFI_FAST then
        setStatus (call s Event.vTaskDelay) STAT_SMB2_CONNECTED_SAFE
      else s

/-- The function `connection(int mode)`. The cases `CONNECT_WIFI` and
`CONNECT_WIFI_FAST` fall through into `case CONNECT_SMB2:`. -/
def connection (mode : Mode) (e : ConnEnv) (s : State) : State :=
  match mode with
  | CONNECT_WIFI | CONNECT_WIFI_FAST =>
    let s := setStatus s STAT_WIFI_CONNECTING
    if e.ssid_len = 0 then setStatus s STAT_WIFI_DISCONNECTED
    else
      let s := call s Event.wifi_connect
      if e.wifi_connect ≠ 0 then setStatus s STAT_WIFI_DISCONNECTED
      else connectionSmb2 mode e (setStatus s STAT_WIFI_CONNECTED)
  | CONNECT_SMB2 => connectionSmb2 mode e s
  | other => s

/-! ## `vd_mount` -/

/-- The results of the calls made for one configured path: of
`connect_smb2_path(path, &shpath)` (`none` is `NULL`, otherwise the session and
the path inside the share), of `smb2_stat` (`none` is a negative return value,
otherwise `st.smb2_type` and `st.smb2_size`), and of `smb2_open`. -/
structure PathOutcome where
  resolve : Option (Nat × String)
  stat : Option (Smb2Type × Nat)
  sfh : Option Nat
  deriving DecidableEq, Repr

/-- The configuration values `vd_mount` reads and the results of its external
calls: `atoi(config.remoteunit)`, `atoi(config.remoteboot)`, and the outcomes
for `config.remote[i]` and `config.hds[i]`. -/
structure World where
  remoteunit : Int
  remoteboot : Int
  remote : Nat → PathOutcome
  hds : Nat → PathOutcome

/-- The array store `a[i] = v`. -/
def setAt {α : Type} (a : Nat → α) (i : Nat) (v : α) : Nat → α :=
  fun j => if j = i then v else a j

/-- A store to a field of `diskinfo[id]`; the array has 7 elements. -/
def storeDisk (s : State) (id : Nat) (f : DiskInfo → DiskInfo) : State :=
  if id < 7 then { s with diskinfo := setAt s.diskinfo id (f (s.diskinfo id)) }
  else { s with disk_oob := true }

/-- Lines 140-152: the body of the remote drive loop for index `i`. -/
def remoteBody (p : Params) (w : World) (i : Nat) (s : State) : State :=
  let s := call s Event.connect_smb2_path
  match (w.remote i).resolve with
  | none => s
  | some (smb2, shpath) =>
    let s := call s Event.smb2_stat
    match (w.remote i).stat with
    | none => s
    | some (ty, _) =>
      if ty ≠ SMB2_TYPE_DIRECTORY then s
      else if i < p.N_REMOTE then
        { s with rootsmb2 := setAt s.rootsmb2 i (some smb2),
                 rootpath := setAt s.rootpath i (some shpath) }
      else { s with root_oob := true }

/-- The loop of line 139, from index `i`, with `k` iterations left. -/
def remoteFrom (p : Params) (w : World) (i : Nat) : Nat → State → State
  | 0, s => s
  | k + 1, s => remoteFrom p w (i + 1) k (remoteBody p w i s)

/-- Lines 159-179: the body of the remote HDS loop for logical unit `i` and
physical slot `id`. -/
def hdsBody (p : Params) (w : World) (i id : Nat) (s : State) : State :=
  let s := { s with hdsinfo := setAt s.hdsinfo i none }
  let s := call s Event.connect_smb2_path
  match (w.hds i).resolve with
  | none => s
  | some (smb2, _) =>
    let s := call s Event.smb2_stat
    match (w.hds i).stat with
    | none => s
    | some (ty, smb2_size) =>
      if ty ≠ SMB2_TYPE_FILE then s
      else
        let s := call s (Event.smb2_open (w.hds i).sfh)
        let s := storeDisk s id (fun d => { d with sfh := (w.hds i).sfh })
        match (w.hds i).sfh with
        | none => s
        | some _ =>
          let s := storeDisk s id (fun d => { d with smb2 := some smb2 })
          let s := storeDisk s id (fun d => { d with size := smb2_size % 2 ^ p.sizeBits })
          { s with hdsinfo := setAt s.hdsinfo i (some id) }

/-- The loop of line 158, `for (...; i < N_HDS; i++, id++)`, from the values
`i` and `id` of its two variables, with `k` iterations left. A `continue`
runs the increment of both. -/
def hdsFrom (p : Params) (w : World) (i id : Nat) : Nat → State → State
  | 0, s => s
  | k + 1, s => hdsFrom p w (i + 1) (id + 1) k (hdsBody p w i id s)

/-- The right-hand side of line 183, `(size + SECTOR_SIZE - 1) / SECTOR_SIZE`,
evaluated in the unsigned type of `size` and converted to the type of `sects`
(`SECTOR_SIZE` is a positive divisor). -/
def sectsOf (p : Params) (size : Nat) : Nat :=
  (size + p.SECTOR_SIZE - 1) % 2 ^ p.sizeBits / p.SECTOR_SIZE % 2 ^ p.sectsBits

/-- The loop of lines 182-184, from index `i`, with `k` iterations left. -/
def sectsFrom (p : Params) (i : Nat) : Nat → State → State
  | 0, s => s
  | k + 1, s =>
    sectsFrom p (i + 1) k
      (storeDisk s i (fun d => { d with sects := sectsOf p d.size }))

/-- The start value of `id` on line 155: `remoteboot ? 1 : 0`. -/
def bootOffset (w : World) : Nat := if w.remoteboot ≠ 0 then 1 else 0

/-- The function `vd_mount(void)`. -/
def vd_mount (p : Params) (w : World) (s : State) : State :=
  let s := remoteFrom p w 0 w.remoteunit.toNat s
  let s := hdsFrom p w 0 (bootOffset w) p.N_HDS s
  let s := sectsFrom p 0 7 s
  setStatus s STAT_CONFIGURED

/-! ## `struct zusb_rmtdata` -/

/-- The C struct `zusb_rmtdata` of `zusbcomm.h`: four `uint8_t` members and
one `uint8_t[4]` member, in declaration order. -/
structure zusb_rmtdata where
  zusb_ch : Fin 256
  hds_changed : Fin 256
  hds_ready : Fin 256
  rmtflag : Fin 256
  hds_parts : Fin 4 → Fin 256

/-- Size and alignment in bytes of a struct member. -/
structure Member where
  size : Nat
  align : Nat
  deriving DecidableEq, Repr

/-- The members of `struct zusb_rmtdata`: `uint8_t` has size 1 and alignment
1, `uint8_t[4]` has size 4 and alignment 1. -/
def zusb_rmtdata_members : List Member := [⟨1, 1⟩, ⟨1, 1⟩, ⟨1, 1⟩, ⟨1, 1⟩, ⟨4, 1⟩]

/-- Round `n` up to a multiple of `a`. -/
def alignUp (n a : Nat) : Nat := (n + a - 1) / a * a

/-- The offsets of the members of a struct laid out from offset `off`: each
member is placed at the next multiple of its alignment. -/
def memberOffsets : Nat → List Member → List Nat
  | _, [] => []
  | off, m :: ms => alignUp off m.align :: memberOffsets (alignUp off m.align + m.size) ms

/-- The offset just past the last member. -/
def membersEnd : Nat → List Member → Nat
  | off, [] => off
  | off, m :: ms => membersEnd (alignUp off m.align + m.size) ms

/-- The size of a struct: the end of its members rounded up to the largest
member alignment. -/
def structSize (ms : List Member) : Nat :=
  alignUp (membersEnd 0 ms) (ms.foldl (fun a m => max a m.align) 1)

/-- Store the bytes `bs` at offset `off` of the buffer `buf`. -/
def writeAt (buf : List (Fin 256)) (off : Nat) (bs : List (Fin 256)) : List (Fin 256) :=
  buf.take off ++ bs ++ buf.drop (off + bs.length)

/-- Store each member value at its offset. -/
def writeMembers (buf : List (Fin 256)) : List Nat → List (List (Fin 256)) → List (Fin 256)
  | off :: offs, bs :: bss => writeMembers (writeAt buf off bs) offs bss
  | _, _ => buf

/-- The byte image of a `struct zusb_rmtdata` object. -/
def zusb_rmtdata.toBytes (r : zusb_rmtdata) : List (Fin 256) :=
  writeMembers (List.replicate (structSize zusb_rmtdata_members) 0)
    (memberOffsets 0 zusb_rmtdata_members)
    [[r.zusb_ch], [r.hds_changed], [r.hds_ready], [r.rmtflag],
     [r.hds_parts 0, r.hds_parts 1, r.hds_parts 2, r.hds_parts 3]]

/-- Read a `struct zusb_rmtdata` object back from its byte image, member by
member. -/
def zusb_rmtdata.fromBytes (b : List (Fin 256)) : Option zusb_rmtdata :=
  if b.length = structSize zusb_rmtdata_members then
    some
      { zusb_ch := b.getD 0 0
        hds_changed := b.getD 1 0
        hds_ready := b.getD 2 0
        rmtflag := b.getD 3 0
        hds_parts := fun i => b.getD (4 + i.val) 0 }
  else none

/-- The `rmtflag` byte: bit 0 is the SCSI IOCS patch flag, bit 7 the RTC adjust
flag. -/
def rmtflagOf (patch rtc : Bool) : Fin 256 :=
  ⟨((if patch then 1 else 0) + (if rtc then 128 else 0)) % 256, Nat.mod_lt _ (by decide)⟩

/-- The `hds_parts` array with the given four elements. -/
def partsOf (a b c d : Fin 256) : Fin 4 → Fin 256
  | 0 => a
  | 1 => b
  | 2 => c
  | 3 => d

/-! ## Specification-side vocabulary -/

/-- The effect of one event on the list of open file handles: `smb2_open`
adds the handle it returns, `smb2_close` removes the handle it is given. -/
def openStep (acc : List Nat) (ev : Event) : List Nat :=
  match ev with
  | Event.smb2_open (some h) => acc ++ [h]
  | Event.smb2_close h => acc.erase h
  | _ => acc

/-- The file handles open after a log of calls: those `smb2_open` returned,
less those passed to `smb2_close`. -/
def openHandles (log : List Event) : List Nat := log.foldl openStep []

/-- The values stored to `sysstatus` on the way from state `s` to state `t`. -/
def writesOf (s t : State) : List Status :=
  (statusWrites t.log).drop (statusWrites s.log).length

/-- The events logged on the way from state `s` to state `t`. -/
def eventsOf (s t : State) : List Event := t.log.drop s.log.length

/-- The stage sequence of a mode: the stores `connection` makes on its
failure-free path. -/
def stageSeq : Mode → List Status
  | CONNECT_WIFI =>
    [STAT_WIFI_CONNECTING, STAT_WIFI_CONNECTED, STAT_SMB2_CONNECTING,
     STAT_SMB2_CONNECTED, STAT_SMB2_CONNECTED_SAFE]
  | CONNECT_WIFI_FAST =>
    [STAT_WIFI_CONNECTING, STAT_WIFI_CONNECTED, STAT_SMB2_CONNECTING,
     STAT_SMB2_CONNECTED]
  | CONNECT_SMB2 =>
    [STAT_SMB2_CONNECTING, STAT_SMB2_CONNECTED, STAT_SMB2_CONNECTED_SAFE]
  | other => []

/-- Strictly increasing in the stage order. -/
def Increasing (l : List Status) : Prop :=
  l.Pairwise (fun a b => a.rank < b.rank)

instance (l : List Status) : Decidable (Increasing l) := by
  unfold Increasing; infer_instance

/-- Stage A is run and fails: the SSID is empty or the join fails. -/
def radioFails (mode : Mode) (e : ConnEnv) : Bool :=
  (mode = CONNECT_WIFI || mode = CONNECT_WIFI_FAST) &&
    (e.ssid_len = 0 || e.wifi_connect ≠ 0)

/-- The number of stages of `stageSeq mode` completed before the first failure
or early return. -/
def stagesReached (mode : Mode) (e : ConnEnv) : Nat :=
  match mode with
  | CONNECT_WIFI | CONNECT_WIFI_FAST =>
    if radioFails mode e then 1
    else if e.server_len = 0 then 2
    else if e.connect_ipc = none then 3
    else (stageSeq mode).length
  | CONNECT_SMB2 =>
    if e.server_len = 0 then 0
    else if e.connect_ipc = none then 1
    else 3
  | other => 0

/-- The value a failing stage stores after the stages reached: a failed radio
join stores `STAT_WIFI_DISCONNECTED`, a failed session connect stores
`STAT_WIFI_CONNECTED`; an empty server name stores nothing. -/
def revertWrite (mode : Mode) (e : ConnEnv) : List Status :=
  if radioFails mode e then [STAT_WIFI_DISCONNECTED]
  else if mode = other ∨ e.server_len = 0 then []
  else if e.connect_ipc = none then [STAT_WIFI_CONNECTED]
  else []

/-- The events `connectionSmb2` appends to the log. -/
def smb2Events (mode : Mode) (e : ConnEnv) : List Event :=
  if e.server_len = 0 then []
  else
    match e.connect_ipc with
    | none =>
      [Event.store STAT_SMB2_CONNECTING, Event.connect_smb2,
       Event.store STAT_WIFI_CONNECTED]
    | some ipc =>
      [Event.store STAT_SMB2_CONNECTING, Event.connect_smb2,
       Event.store STAT_SMB2_CONNECTED, Event.smb2_get_system_time,
       Event.get_absolute_time, Event.get_absolute_time,
       Event.disconnect_smb2 ipc] ++
      (if mode ≠ CONNECT_WIFI_FAST then
        [Event.vTaskDelay, Event.store STAT_SMB2_CONNECTED_SAFE] else [])

/-- The events `connection` appends to the log. -/
def connEvents (mode : Mode) (e : ConnEnv) : List Event :=
  match mode with
  | CONNECT_WIFI | CONNECT_WIFI_FAST =>
    if e.ssid_len = 0 then
      [Event.store STAT_WIFI_CONNECTING, Event.store STAT_WIFI_DISCONNECTED]
    else if e.wifi_connect ≠ 0 then
      [Event.store STAT_WIFI_CONNECTING, Event.wifi_connect,
       Event.store STAT_WIFI_DISCONNECTED]
    else
      [Event.store STAT_WIFI_CONNECTING, Event.wifi_connect,
       Event.store STAT_WIFI_CONNECTED] ++ smb2Events mode e
  | CONNECT_SMB2 => smb2Events mode e
  | other => []

/-- A run of `connection` in which every stage succeeds. -/
def allStagesOk (e : ConnEnv) : Prop :=
  e.ssid_len ≠ 0 ∧ e.wifi_connect = 0 ∧ e.server_len ≠ 0 ∧ e.connect_ipc ≠ none

instance (e : ConnEnv) : Decidable (allStagesOk e) := by
  unfold allStagesOk; infer_instance

/-- An environment in which every stage succeeds. -/
def envOk : ConnEnv := ⟨4, 0, 9, some 1, 133801632000000000, 5000000⟩

/-- An environment in which the SSID is empty. -/
def envNoSsid : ConnEnv := ⟨0, 0, 9, some 1, 133801632000000000, 5000000⟩

/-- An environment in which the radio join succeeds and the session connect
fails. -/
def envNoIpc : ConnEnv := ⟨4, 0, 9, none, 133801632000000000, 5000000⟩

/-- The effect of one iteration of the remote HDS loop on the `diskinfo`
element it addresses: nothing when resolve or the regular-file check fails,
a null handle when `smb2_open` fails, and handle, session and size otherwise. -/
def slotAfter (p : Params) (o : PathOutcome) (d : DiskInfo) : DiskInfo :=
  match o.resolve, o.stat with
  | some (smb2, _), some (SMB2_TYPE_FILE, sz) =>
    match o.sfh with
    | none => { d with sfh := none }
    | some h => { d with smb2 := some smb2, sfh := some h, size := sz % 2 ^ p.sizeBits }
  | _, _ => d

/-- The assignment of line 183 applied to one `diskinfo` element. -/
def withSects (p : Params) (d : DiskInfo) : DiskInfo :=
  { d with sects := sectsOf p d.size }

/-- Resolve, regular-file check and open all succeeded. -/
def PathOutcome.bound (o : PathOutcome) : Bool :=
  match o.resolve, o.stat, o.sfh with
  | some _, some (SMB2_TYPE_FILE, _), some _ => true
  | _, _, _ => false

/-- The calls one iteration of the remote HDS loop makes. -/
def hdsEvents (o : PathOutcome) : List Event :=
  match o.resolve, o.stat with
  | none, _ => [Event.connect_smb2_path]
  | some _, some (SMB2_TYPE_FILE, _) =>
    [Event.connect_smb2_path, Event.smb2_stat, Event.smb2_open o.sfh]
  | some _, _ => [Event.connect_smb2_path, Event.smb2_stat]

/-- The calls of `k` iterations of the remote HDS loop from unit `i`. -/
def hdsLoopEvents (w : World) (i : Nat) : Nat → List Event
  | 0 => []
  | k + 1 => hdsEvents (w.hds i) ++ hdsLoopEvents w (i + 1) k

/-- The calls one iteration of the remote drive loop makes. -/
def remoteEvents (o : PathOutcome) : List Event :=
  match o.resolve with
  | none => [Event.connect_smb2_path]
  | some _ => [Event.connect_smb2_path, Event.smb2_stat]

/-- The calls of `k` iterations of the remote drive loop from index `i`. -/
def remoteLoopEvents (w : World) (i : Nat) : Nat → List Event
  | 0 => []
  | k + 1 => remoteEvents (w.remote i) ++ remoteLoopEvents w (i + 1) k

/-- The events `vd_mount` appends to the log. -/
def mountEvents (p : Params) (w : World) : List Event :=
  remoteLoopEvents w 0 w.remoteunit.toNat ++ hdsLoopEvents w 0 p.N_HDS ++
    [Event.store STAT_CONFIGURED]

/-- Sample values of the constants: four HDS units, eight remote drives,
512-byte sectors, a 64-bit `size` and a 32-bit `sects`. -/
def p0 : Params := ⟨4, 8, 512, 64, 32⟩

/-- A path for which resolve, regular-file check and open succeed, with the
given session, handle and byte length. -/
def fileOk (session handle size : Nat) : PathOutcome :=
  ⟨some (session, "disk.hds"), some (SMB2_TYPE_FILE, size), some handle⟩

/-- A path that does not resolve. -/
def unresolved : PathOutcome := ⟨none, none, none⟩

/-- A path that resolves to a regular file which cannot be opened. -/
def openFails (session size : Nat) : PathOutcome :=
  ⟨some (session, "disk.hds"), some (SMB2_TYPE_FILE, size), none⟩

/-- A world with no remote drive, no boot offset, and the given outcome for
`config.hds[0]`; the other disk-image paths do not resolve. -/
def worldOf (o : PathOutcome) : World :=
  ⟨0, 0, fun _ => unresolved, fun i => if i = 0 then o else unresolved⟩

/-- The world of `worldOf` with a non-zero boot-offset flag
(`atoi(config.remoteboot) = 1`). -/
def worldBootOf (o : PathOutcome) : World :=
  ⟨0, 1, fun _ => unresolved, fun i => if i = 0 then o else unresolved⟩

/-- The state after a first `vd_mount()` from boot that bound `diskinfo[0]`
to handle 11 (session 1, 1000 bytes). -/
def mountedOnce : State := vd_mount p0 (worldOf (fileOk 1 11 1000)) State.boot

/-- The state after a second `vd_mount()` that binds `diskinfo[0]` to handle
22 (session 2, 2048 bytes). -/
def mountedTwice : State := vd_mount p0 (worldOf (fileOk 2 22 2048)) mountedOnce

/-- The event releases a file handle or a session. -/
def isRelease : Event → Bool
  | Event.smb2_close _ => true
  | Event.disconnect_smb2 _ => true
  | _ => false

/-- Stage B (the code from `case CONNECT_SMB2:`) is reached: the mode is
`CONNECT_SMB2`, or it is one of the two radio modes and the radio join
succeeded. -/
def stageBReached (mode : Mode) (e : ConnEnv) : Prop :=
  mode = CONNECT_SMB2 ∨
    ((mode = CONNECT_WIFI ∨ mode = CONNECT_WIFI_FAST) ∧ e.ssid_len ≠ 0 ∧ e.wifi_connect = 0)

instance (mode : Mode) (e : ConnEnv) : Decidable (stageBReached mode e) := by
  unfold stageBReached; infer_instance

/-- The events of a successful Stage A. -/
def radioEvents (mode : Mode) : List Event :=
  if mode = CONNECT_SMB2 then []
  else [Event.store STAT_WIFI_CONNECTING, Event.wifi_connect, Event.store STAT_WIFI_CONNECTED]

/-! ## Basic lemmas about the ghost log -/

theorem statusWrites_append (l m : List Event) :
    statusWrites (l ++ m) = statusWrites l ++ statusWrites m := by
  induction l with
  | nil => rfl
  | cons a l ih => cases a <;> simp [statusWrites, ih]

theorem writesOf_of_log (s t : State) (new : List Event)
    (h : t.log = s.log ++ new) : writesOf s t = statusWrites new := by
  simp [writesOf, h, statusWrites_append]

theorem eventsOf_of_log (s t : State) (new : List Event)
    (h : t.log = s.log ++ new) : eventsOf s t = new := by
  simp [eventsOf, h]

/-! ## `connection`: the log it produces -/

theorem connectionSmb2_log (mode : Mode) (e : ConnEnv) (s : State) :
    (connectionSmb2 mode e s).log = s.log ++ smb2Events mode e := by
  unfold connectionSmb2 smb2Events
  by_cases h0 : e.server_len = 0
  · simp [h0]
  · cases hc : e.connect_ipc with
    | none => simp [h0, hc, setStatus, call]
    | some ipc =>
      by_cases hm : mode = CONNECT_WIFI_FAST <;>
        simp [h0, hc, hm, setStatus, call]

theorem connection_log (mode : Mode) (e : ConnEnv) (s : State) :
    (connection mode e s).log = s.log ++ connEvents mode e := by
  cases mode <;> simp only [connection, connEvents]
  · by_cases h0 : e.ssid_len = 0
    · simp [h0, setStatus]
    · by_cases h1 : e.wifi_connect = 0 <;>
        simp [h0, h1, setStatus, call, connectionSmb2_log]
  · by_cases h0 : e.ssid_len = 0
    · simp [h0, setStatus]
    · by_cases h1 : e.wifi_connect = 0 <;>
        simp [h0, h1, setStatus, call, connectionSmb2_log]
  · exact connectionSmb2_log _ e s
  · simp

/-! ## `connection`: status stores -/

theorem connEvents_writes (mode : Mode) (e : ConnEnv) :
    statusWrites (connEvents mode e)
      = (stageSeq mode).take (stagesReached mode e) ++ revertWrite mode e := by
  cases mode <;>
    simp only [connEvents, smb2Events, stagesReached, revertWrite, radioFails, stageSeq]
  all_goals
    by_cases h0 : e.ssid_len = 0 <;> by_cases h1 : e.wifi_connect = 0 <;>
    by_cases h2 : e.server_len = 0 <;> cases hc : e.connect_ipc <;>
    simp [h0, h1, h2, hc, statusWrites]

theorem writesOf_connection (mode : Mode) (e : ConnEnv) (s : State) :
    writesOf s (connection mode e s)
      = (stageSeq mode).take (stagesReached mode e) ++ revertWrite mode e := by
  rw [writesOf_of_log s _ _ (connection_log mode e s), connEvents_writes]

/-- C1 (as stated, refuted): `connection(CONNECT_WIFI)` with an empty SSID
stores `STAT_WIFI_CONNECTING` and then `STAT_WIFI_DISCONNECTED`; this sequence
is not strictly increasing in the stage order and is no initial segment of
the stage sequence of the mode. -/
theorem connection_writes_not_increasing :
    writesOf State.boot (connection CONNECT_WIFI envNoSsid State.boot)
        = [STAT_WIFI_CONNECTING, STAT_WIFI_DISCONNECTED] ∧
      ¬ Increasing (writesOf State.boot (connection CONNECT_WIFI envNoSsid State.boot)) ∧
      ¬ ∃ k, writesOf State.boot (connection CONNECT_WIFI envNoSsid State.boot)
          = (stageSeq CONNECT_WIFI).take k := by
  have hw : writesOf State.boot (connection CONNECT_WIFI envNoSsid State.boot)
      = [STAT_WIFI_CONNECTING, STAT_WIFI_DISCONNECTED] := by decide
  refine ⟨hw, ?_, ?_⟩
  · rw [hw]; decide
  · rw [hw]
    rintro ⟨k, hk⟩
    have h5 : ∀ k, k ≤ 5 → [STAT_WIFI_CONNECTING, STAT_WIFI_DISCONNECTED]
        ≠ (stageSeq CONNECT_WIFI).take k := by decide
    rcases Nat.lt_or_ge k 6 with h | h
    · exact h5 k (by omega) hk
    · rw [List.take_of_length_le (by simp [stageSeq]; omega)] at hk
      exact absurd hk (by decide)

/-- C1 (amended): the values one call of `connection(mode)` stores to
`sysstatus` are the first `stagesReached` stages of the strictly increasing
stage sequence of the mode, followed by the revert store of a failing stage
(`STAT_WIFI_DISCONNECTED` after a failed radio join, `STAT_WIFI_CONNECTED`
after a failed session connect, nothing otherwise); when every stage succeeds
the whole stage sequence is stored and nothing else. -/
theorem connection_writes (mode : Mode) (e : ConnEnv) (s : State) :
    writesOf s (connection mode e s)
        = (stageSeq mode).take (stagesReached mode e) ++ revertWrite mode e ∧
      Increasing (stageSeq mode) ∧
      (allStagesOk e → writesOf s (connection mode e s) = stageSeq mode) := by
  have hw := writesOf_connection mode e s
  refine ⟨hw, ?_, ?_⟩
  · cases mode <;> decide
  · rintro ⟨h0, h1, h2, h3⟩
    rw [hw]
    cases mode <;> simp [stagesReached, revertWrite, radioFails, stageSeq, h0, h1, h2, h3]

/-- Witness of `connection_writes` on a run in which every stage succeeds. -/
theorem connection_writes_witness :
    allStagesOk envOk ∧
      writesOf State.boot (connection CONNECT_WIFI envOk State.boot)
        = stageSeq CONNECT_WIFI :=
  have h : allStagesOk envOk := by decide
  ⟨h, (connection_writes CONNECT_WIFI envOk State.boot).2.2 h⟩

/-- C2: `connection(CONNECT_WIFI_FAST)` never stores
`STAT_SMB2_CONNECTED_SAFE`, and ends with `sysstatus = STAT_SMB2_CONNECTED`
when radio join and session connect succeed; `connection(CONNECT_WIFI)` and
`connection(CONNECT_SMB2)` end with `sysstatus = STAT_SMB2_CONNECTED_SAFE`
when every stage they run succeeds. -/
theorem fast_mode_skips_safe (e : ConnEnv) (s : State) :
    STAT_SMB2_CONNECTED_SAFE ∉ writesOf s (connection CONNECT_WIFI_FAST e s) ∧
      (allStagesOk e →
        (connection CONNECT_WIFI_FAST e s).sysstatus = STAT_SMB2_CONNECTED ∧
        (connection CONNECT_WIFI e s).sysstatus = STAT_SMB2_CONNECTED_SAFE) ∧
      (e.server_len ≠ 0 → e.connect_ipc ≠ none →
        (connection CONNECT_SMB2 e s).sysstatus = STAT_SMB2_CONNECTED_SAFE) := by
  refine ⟨?_, ?_, ?_⟩
  · rw [writesOf_connection CONNECT_WIFI_FAST e s]
    simp only [stagesReached, revertWrite, radioFails, stageSeq]
    by_cases h0 : e.ssid_len = 0 <;> by_cases h1 : e.wifi_connect = 0 <;>
    by_cases h2 : e.server_len = 0 <;> cases hc : e.connect_ipc <;>
    simp [h0, h1, h2, hc]
  · rintro ⟨h0, h1, h2, h3⟩
    obtain ⟨ipc, hi⟩ := Option.ne_none_iff_exists'.mp h3
    simp [connection, connectionSmb2, setStatus, call, h0, h1, h2, hi]
  · intro h2 h3
    obtain ⟨ipc, hi⟩ := Option.ne_none_iff_exists'.mp h3
    simp [connection, connectionSmb2, setStatus, call, h2, hi]

/-- Witness of `fast_mode_skips_safe` on a run in which every stage succeeds. -/
theorem fast_mode_skips_safe_witness :
    allStagesOk envOk ∧
      (connection CONNECT_WIFI_FAST envOk State.boot).sysstatus = STAT_SMB2_CONNECTED ∧
      (connection CONNECT_WIFI envOk State.boot).sysstatus = STAT_SMB2_CONNECTED_SAFE :=
  have h : allStagesOk envOk := by decide
  ⟨h, (fast_mode_skips_safe envOk State.boot).2.1 h⟩

/-- C7: when Stage B is reached with a non-empty server name and
`connect_smb2("IPC$")` fails, `connection(mode)` returns with
`sysstatus = STAT_WIFI_CONNECTED` and `boottime` unchanged, and the revert
store is the last thing it does (no later stage runs); when the server name is
empty, no session connect is attempted and the status is the one Stage A left
(`STAT_WIFI_CONNECTED` after a successful radio join). -/
theorem session_connect_failure_reverts (mode : Mode) (e : ConnEnv) (s : State)
    (hB : stageBReached mode e) :
    (e.server_len ≠ 0 → e.connect_ipc = none →
      (connection mode e s).sysstatus = STAT_WIFI_CONNECTED ∧
      (connection mode e s).boottime = s.boottime ∧
      eventsOf s (connection mode e s) = radioEvents mode ++
        [Event.store STAT_SMB2_CONNECTING, Event.connect_smb2,
         Event.store STAT_WIFI_CONNECTED]) ∧
    (e.server_len = 0 →
      (connection mode e s).sysstatus
        = (if mode = CONNECT_SMB2 then s.sysstatus else STAT_WIFI_CONNECTED) ∧
      (connection mode e s).boottime = s.boottime ∧
      Event.connect_smb2 ∉ eventsOf s (connection mode e s) ∧
      eventsOf s (connection mode e s) = radioEvents mode) := by
  have hl := eventsOf_of_log s _ _ (connection_log mode e s)
  rw [hl]
  rcases hB with rfl | ⟨hm, h0, h1⟩
  · constructor
    · intro h2 hc
      simp [connection, connectionSmb2, setStatus, call, connEvents, smb2Events,
        radioEvents, h2, hc]
    · intro h2
      simp [connection, connectionSmb2, connEvents, smb2Events, radioEvents, h2]
  · constructor
    · intro h2 hc
      rcases hm with rfl | rfl <;>
        simp [connection, connectionSmb2, setStatus, call, connEvents, smb2Events,
          radioEvents, h0, h1, h2, hc]
    · intro h2
      rcases hm with rfl | rfl <;>
        simp [connection, connectionSmb2, setStatus, call, connEvents, smb2Events,
          radioEvents, h0, h1, h2]

/-- Witness of `session_connect_failure_reverts`: mode `CONNECT_SMB2` from the
boot state with a failing session connect. -/
theorem session_connect_failure_reverts_witness :
    stageBReached CONNECT_SMB2 envNoIpc ∧
      (connection CONNECT_SMB2 envNoIpc State.boot).sysstatus = STAT_WIFI_CONNECTED :=
  have h : stageBReached CONNECT_SMB2 envNoIpc := by decide
  ⟨h, ((session_connect_failure_reverts CONNECT_SMB2 envNoIpc State.boot h).1
    (by decide) (by decide)).1⟩

/-! ## `connection`: the clock offset -/

theorem boottimeOf_int (R L : Nat) (hR : R < 2 ^ 64) :
    ((boottimeOf R L : Nat) : Int)
      = (((R / 10 : Nat) : Int) - 11644473600 * 1000000 - (L : Int)) % 2 ^ 64 := by
  unfold boottimeOf subU64
  omega

/-- C8: when Stage C runs with remote system time `R` (unsigned
64-bit) and local time `L`, it stores
`boottime = (R / 10 - 11644473600 * 1000000 - L) mod 2^64`; `boottime + L` is
congruent modulo 2^64 to `R / 10 - 11644473600 * 1000000`, the remote time in
microseconds since the Unix epoch; and when
`R / 10 ≥ 11644473600 * 10^6 + L` the stored value is the exact difference. -/
theorem boottime_offset (mode : Mode) (e : ConnEnv) (s : State)
    (hB : stageBReached mode e) (hs : e.server_len ≠ 0) (hc : e.connect_ipc ≠ none)
    (hR : e.system_time < 2 ^ 64) :
    (((connection mode e s).boottime : Nat) : Int)
        = (((e.system_time / 10 : Nat) : Int) - 11644473600 * 1000000
            - (e.us_since_boot : Int)) % 2 ^ 64 ∧
      ((((connection mode e s).boottime + e.us_since_boot : Nat) : Int)) % 2 ^ 64
        = (((e.system_time / 10 : Nat) : Int) - 11644473600 * 1000000) % 2 ^ 64 ∧
      (11644473600 * 10 ^ 6 + e.us_since_boot ≤ e.system_time / 10 →
        (connection mode e s).boottime
          = e.system_time / 10 - 11644473600 * 1000000 - e.us_since_boot) := by
  obtain ⟨ipc, hi⟩ := Option.ne_none_iff_exists'.mp hc
  have hb : (connection mode e s).boottime = boottimeOf e.system_time e.us_since_boot := by
    rcases hB with rfl | ⟨hm, h0, h1⟩
    · by_cases hm : (CONNECT_SMB2 : Mode) = CONNECT_WIFI_FAST <;>
        simp [connection, connectionSmb2, setStatus, call, hs, hi]
    · rcases hm with rfl | rfl <;>
        simp [connection, connectionSmb2, setStatus, call, hs, hi, h0, h1]
  have hI := boottimeOf_int e.system_time e.us_since_boot hR
  rw [hb]
  refine ⟨hI, ?_, ?_⟩
  · push_cast
    rw [hI]
    omega
  · intro hge
    have : ((boottimeOf e.system_time e.us_since_boot : Nat) : Int)
        = ((e.system_time / 10 - 11644473600 * 1000000 - e.us_since_boot : Nat) : Int) := by
      rw [hI]
      omega
    exact_mod_cast this

/-- Witness of `boottime_offset`: a full `CONNECT_WIFI` run with remote time
133801632000000000 (in 100 ns units since 1601) five seconds after boot. -/
theorem boottime_offset_witness :
    stageBReached CONNECT_WIFI envOk ∧
      (connection CONNECT_WIFI envOk State.boot).boottime = 1735689595000000 :=
  have h : stageBReached CONNECT_WIFI envOk := by decide
  have hb := (boottime_offset CONNECT_WIFI envOk State.boot h (by decide) (by decide)
    (by decide)).2.2 (by decide)
  ⟨h, by rw [hb]; decide⟩

/-! ## `vd_mount`: the remote drive loop -/

theorem remoteBody_frame (p : Params) (w : World) (i : Nat) (s : State) :
    (remoteBody p w i s).diskinfo = s.diskinfo ∧
      (remoteBody p w i s).hdsinfo = s.hdsinfo ∧
      (remoteBody p w i s).disk_oob = s.disk_oob ∧
      (remoteBody p w i s).log = s.log ++ remoteEvents (w.remote i) := by
  unfold remoteBody remoteEvents
  rcases hr : (w.remote i).resolve with _ | ⟨smb2, shpath⟩
  · simp [call]
  · rcases hs : (w.remote i).stat with _ | ⟨ty, sz⟩
    · simp [call]
    · by_cases ht : ty = SMB2_TYPE_DIRECTORY <;> by_cases hi : i < p.N_REMOTE <;>
        simp [call, ht, hi]

theorem remoteFrom_frame (p : Params) (w : World) (k : Nat) :
    ∀ (i : Nat) (s : State),
      (remoteFrom p w i k s).diskinfo = s.diskinfo ∧
      (remoteFrom p w i k s).hdsinfo = s.hdsinfo ∧
      (remoteFrom p w i k s).disk_oob = s.disk_oob ∧
      (remoteFrom p w i k s).log = s.log ++ remoteLoopEvents w i k := by
  induction k with
  | zero => intro i s; simp [remoteFrom, remoteLoopEvents]
  | succ k ih =>
    intro i s
    obtain ⟨h1, h2, h3, h4⟩ := ih (i + 1) (remoteBody p w i s)
    obtain ⟨b1, b2, b3, b4⟩ := remoteBody_frame p w i s
    simp only [remoteFrom, remoteLoopEvents]
    refine ⟨h1.trans b1, h2.trans b2, h3.trans b3, ?_⟩
    rw [h4, b4, List.append_assoc]

/-! ## `vd_mount`: the remote HDS loop -/

theorem storeDisk_diskinfo (s : State) (id : Nat) (f : DiskInfo → DiskInfo) (j : Nat) :
    (storeDisk s id f).diskinfo j
      = if j = id ∧ id < 7 then f (s.diskinfo j) else s.diskinfo j := by
  unfold storeDisk setAt
  by_cases h : id < 7 <;> by_cases hj : j = id <;> simp [h, hj]

theorem storeDisk_frame (s : State) (id : Nat) (f : DiskInfo → DiskInfo) :
    (storeDisk s id f).hdsinfo = s.hdsinfo ∧ (storeDisk s id f).log = s.log ∧
      (id < 7 → (storeDisk s id f).disk_oob = s.disk_oob) := by
  unfold storeDisk
  by_cases h : id < 7 <;> simp [h]

theorem hdsBody_diskinfo (p : Params) (w : World) (i id : Nat) (s : State) (j : Nat) :
    (hdsBody p w i id s).diskinfo j
      = if j = id ∧ id < 7 then slotAfter p (w.hds i) (s.diskinfo j) else s.diskinfo j := by
  unfold hdsBody slotAfter
  rcases hr : (w.hds i).resolve with _ | ⟨smb2, shpath⟩
  · simp [call]
  · rcases hs : (w.hds i).stat with _ | ⟨ty, sz⟩
    · simp [call]
    · cases ty
      · rcases ho : (w.hds i).sfh with _ | h <;>
          by_cases hj : j = id <;> by_cases h7 : id < 7 <;>
          simp [call, storeDisk_diskinfo, hj, h7]
      · simp [call]
      · simp [call]

theorem hdsBody_hdsinfo (p : Params) (w : World) (i id : Nat) (s : State) (u : Nat) :
    (hdsBody p w i id s).hdsinfo u
      = if u = i then (if (w.hds i).bound then some id else none) else s.hdsinfo u := by
  unfold hdsBody PathOutcome.bound
  rcases hr : (w.hds i).resolve with _ | ⟨smb2, shpath⟩
  · simp [call, setAt]
  · rcases hs : (w.hds i).stat with _ | ⟨ty, sz⟩
    · simp [call, setAt]
    · cases ty
      · rcases ho : (w.hds i).sfh with _ | h
        · simp [call, setAt, (storeDisk_frame _ _ _).1]
        · by_cases hu : u = i <;> simp [call, setAt, (storeDisk_frame _ _ _).1, hu]
      · simp [call, setAt]
      · simp [call, setAt]

theorem hdsBody_log (p : Params) (w : World) (i id : Nat) (s : State) :
    (hdsBody p w i id s).log = s.log ++ hdsEvents (w.hds i) := by
  unfold hdsBody hdsEvents
  rcases hr : (w.hds i).resolve with _ | ⟨smb2, shpath⟩
  · simp [call]
  · rcases hs : (w.hds i).stat with _ | ⟨ty, sz⟩
    · simp [call]
    · cases ty
      · rcases ho : (w.hds i).sfh with _ | h <;>
          simp [call, (storeDisk_frame _ _ _).2.1]
      · simp [call]
      · simp [call]

theorem hdsBody_disk_oob (p : Params) (w : World) (i id : Nat) (s : State) (hid : id < 7) :
    (hdsBody p w i id s).disk_oob = s.disk_oob := by
  unfold hdsBody
  rcases hr : (w.hds i).resolve with _ | ⟨smb2, shpath⟩
  · simp [call]
  · rcases hs : (w.hds i).stat with _ | ⟨ty, sz⟩
    · simp [call]
    · cases ty
      · rcases ho : (w.hds i).sfh with _ | h <;>
          simp [call, (storeDisk_frame _ _ _).2.2 hid]
      · simp [call]
      · simp [call]

theorem hdsFrom_diskinfo (p : Params) (w : World) (k : Nat) :
    ∀ (i id : Nat) (s : State) (j : Nat),
      (hdsFrom p w i id k s).diskinfo j
        = if id ≤ j ∧ j < id + k ∧ j < 7
          then slotAfter p (w.hds (i + (j - id))) (s.diskinfo j) else s.diskinfo j := by
  induction k with
  | zero =>
    intro i id s j
    have h : ¬ (id ≤ j ∧ j < id + 0 ∧ j < 7) := by omega
    simp only [hdsFrom]; rw [if_neg h]
  | succ k ih =>
    intro i id s j
    simp only [hdsFrom]
    rw [ih (i + 1) (id + 1) (hdsBody p w i id s) j, hdsBody_diskinfo]
    by_cases h1 : j = id
    · subst h1
      by_cases h7 : j < 7 <;> simp [h7]
    · by_cases h2 : id + 1 ≤ j ∧ j < id + 1 + k ∧ j < 7
      · have h3 : id ≤ j ∧ j < id + (k + 1) ∧ j < 7 := by omega
        have h4 : i + 1 + (j - (id + 1)) = i + (j - id) := by omega
        simp [h1, h2, h3, h4]
      · have h3 : ¬ (id ≤ j ∧ j < id + (k + 1) ∧ j < 7) := by omega
        simp [h1, h2, h3]

theorem hdsFrom_hdsinfo (p : Params) (w : World) (k : Nat) :
    ∀ (i id : Nat) (s : State) (u : Nat),
      (hdsFrom p w i id k s).hdsinfo u
        = if i ≤ u ∧ u < i + k
          then (if (w.hds u).bound then some (id + (u - i)) else none)
          else s.hdsinfo u := by
  induction k with
  | zero =>
    intro i id s u
    have h : ¬ (i ≤ u ∧ u < i + 0) := by omega
    simp only [hdsFrom]; rw [if_neg h]
  | succ k ih =>
    intro i id s u
    simp only [hdsFrom]
    rw [ih (i + 1) (id + 1) (hdsBody p w i id s) u, hdsBody_hdsinfo]
    by_cases h1 : u = i
    · subst h1
      simp
    · by_cases h2 : i + 1 ≤ u ∧ u < i + 1 + k
      · have h3 : i ≤ u ∧ u < i + (k + 1) := by omega
        have h4 : id + 1 + (u - (i + 1)) = id + (u - i) := by omega
        simp [h2, h3, h4]
      · have h3 : ¬ (i ≤ u ∧ u < i + (k + 1)) := by omega
        simp [h1, h2, h3]

theorem hdsFrom_log (p : Params) (w : World) (k : Nat) :
    ∀ (i id : Nat) (s : State),
      (hdsFrom p w i id k s).log = s.log ++ hdsLoopEvents w i k := by
  induction k with
  | zero => intro i id s; simp [hdsFrom, hdsLoopEvents]
  | succ k ih =>
    intro i id s
    simp only [hdsFrom, hdsLoopEvents]
    rw [ih, hdsBody_log, List.append_assoc]

theorem hdsFrom_disk_oob (p : Params) (w : World) (k : Nat) :
    ∀ (i id : Nat) (s : State), id + k ≤ 7 →
      (hdsFrom p w i id k s).disk_oob = s.disk_oob := by
  induction k with
  | zero => intro i id s _; simp [hdsFrom]
  | succ k ih =>
    intro i id s h
    simp only [hdsFrom]
    rw [ih (i + 1) (id + 1) _ (by omega), hdsBody_disk_oob p w i id s (by omega)]

/-! ## `vd_mount`: the sector count loop -/

theorem sectsFrom_diskinfo (p : Params) (k : Nat) :
    ∀ (i : Nat) (s : State) (j : Nat),
      (sectsFrom p i k s).diskinfo j
        = if i ≤ j ∧ j < i + k ∧ j < 7 then withSects p (s.diskinfo j)
          else s.diskinfo j := by
  induction k with
  | zero =>
    intro i s j
    have h : ¬ (i ≤ j ∧ j < i + 0 ∧ j < 7) := by omega
    simp only [sectsFrom]; rw [if_neg h]
  | succ k ih =>
    intro i s j
    simp only [sectsFrom]
    rw [ih (i + 1) _ j, storeDisk_diskinfo]
    by_cases h1 : j = i
    · subst h1
      by_cases h7 : j < 7 <;> simp [h7, withSects]
    · by_cases h2 : i + 1 ≤ j ∧ j < i + 1 + k ∧ j < 7
      · have h3 : i ≤ j ∧ j < i + (k + 1) ∧ j < 7 := by omega
        simp [h1, h2, h3]
      · have h3 : ¬ (i ≤ j ∧ j < i + (k + 1) ∧ j < 7) := by omega
        simp [h1, h2, h3]

theorem sectsFrom_frame (p : Params) (k : Nat) :
    ∀ (i : Nat) (s : State),
      (sectsFrom p i k s).hdsinfo = s.hdsinfo ∧ (sectsFrom p i k s).log = s.log ∧
      (i + k ≤ 7 → (sectsFrom p i k s).disk_oob = s.disk_oob) := by
  induction k with
  | zero => intro i s; simp [sectsFrom]
  | succ k ih =>
    intro i s
    simp only [sectsFrom]
    obtain ⟨h1, h2, h3⟩ := ih (i + 1) (storeDisk s i (fun d => { d with sects := sectsOf p d.size }))
    obtain ⟨b1, b2, b3⟩ := storeDisk_frame s i (fun d => { d with sects := sectsOf p d.size })
    refine ⟨h1.trans b1, h2.trans b2, fun h => ?_⟩
    rw [h3 (by omega), b3 (by omega)]

/-! ## `vd_mount`: the state it returns -/

theorem bootOffset_le (w : World) : bootOffset w ≤ 1 := by
  unfold bootOffset; split <;> simp

theorem vd_mount_diskinfo (p : Params) (w : World) (s : State) (j : Nat) (hj : j < 7) :
    (vd_mount p w s).diskinfo j
      = withSects p
          (if bootOffset w ≤ j ∧ j < bootOffset w + p.N_HDS
           then slotAfter p (w.hds (j - bootOffset w)) (s.diskinfo j)
           else s.diskinfo j) := by
  simp only [vd_mount, setStatus]
  rw [sectsFrom_diskinfo, hdsFrom_diskinfo, (remoteFrom_frame p w _ 0 s).1]
  have h0 : (0 ≤ j ∧ j < 0 + 7 ∧ j < 7) := by omega
  simp [h0, hj]

theorem vd_mount_hdsinfo (p : Params) (w : World) (s : State) (u : Nat) :
    (vd_mount p w s).hdsinfo u
      = if u < p.N_HDS
        then (if (w.hds u).bound then some (bootOffset w + u) else none)
        else s.hdsinfo u := by
  simp only [vd_mount, setStatus]
  rw [(sectsFrom_frame p 7 0 _).1, hdsFrom_hdsinfo, (remoteFrom_frame p w _ 0 s).2.1]
  simp

theorem vd_mount_log (p : Params) (w : World) (s : State) :
    (vd_mount p w s).log = s.log ++ mountEvents p w := by
  simp only [vd_mount, setStatus, mountEvents]
  rw [(sectsFrom_frame p 7 0 _).2.1, hdsFrom_log, (remoteFrom_frame p w _ 0 s).2.2.2]
  simp

theorem vd_mount_disk_oob (p : Params) (w : World) (s : State) (hN : p.N_HDS ≤ 6) :
    (vd_mount p w s).disk_oob = s.disk_oob := by
  have hb := bootOffset_le w
  simp only [vd_mount, setStatus]
  rw [(sectsFrom_frame p 7 0 _).2.2 (by omega), hdsFrom_disk_oob p w _ _ _ _ (by omega),
    (remoteFrom_frame p w _ 0 s).2.2.1]

theorem vd_mount_sysstatus (p : Params) (w : World) (s : State) :
    (vd_mount p w s).sysstatus = STAT_CONFIGURED := rfl

theorem bound_iff (o : PathOutcome) :
    o.bound = true ↔ ∃ smb2 path sz h,
      o.resolve = some (smb2, path) ∧ o.stat = some (SMB2_TYPE_FILE, sz) ∧ o.sfh = some h := by
  unfold PathOutcome.bound
  rcases hr : o.resolve with _ | ⟨smb2, path⟩
  · simp
  · rcases hs : o.stat with _ | ⟨ty, sz⟩
    · simp
    · cases ty <;> rcases ho : o.sfh with _ | h <;> simp

theorem slotAfter_bound (p : Params) (o : PathOutcome) (d : DiskInfo)
    (smb2 : Nat) (path : String) (sz h : Nat)
    (hr : o.resolve = some (smb2, path)) (hs : o.stat = some (SMB2_TYPE_FILE, sz))
    (ho : o.sfh = some h) :
    slotAfter p o d = { d with smb2 := some smb2, sfh := some h, size := sz % 2 ^ p.sizeBits } := by
  simp [slotAfter, hr, hs, ho]

theorem slotAfter_zero_unbound (p : Params) (o : PathOutcome) (hb : o.bound = false) :
    (slotAfter p o DiskInfo.zero).sfh = none ∧ (slotAfter p o DiskInfo.zero).size = 0 := by
  unfold PathOutcome.bound at hb
  unfold slotAfter
  rcases hr : o.resolve with _ | ⟨smb2, path⟩
  · simp [DiskInfo.zero]
  · rcases hs : o.stat with _ | ⟨ty, sz⟩
    · simp [DiskInfo.zero]
    · cases ty <;> rcases ho : o.sfh with _ | h <;> simp_all [DiskInfo.zero]

theorem slotAfter_unresolved (p : Params) (o : PathOutcome) (d : DiskInfo)
    (hf : o.resolve = none ∨ ¬ ∃ sz, o.stat = some (SMB2_TYPE_FILE, sz)) :
    slotAfter p o d = d := by
  unfold slotAfter
  rcases hr : o.resolve with _ | ⟨smb2, path⟩
  · simp
  · rcases hs : o.stat with _ | ⟨ty, sz⟩
    · simp
    · cases ty
      · rcases hf with hf | hf
        · simp [hr] at hf
        · exact absurd ⟨sz, hs⟩ hf
      · simp
      · simp

/-- C5 (as stated, refuted): `diskinfo[0]` is bound by a first `vd_mount()`
(handle 11, session 1, 1000 bytes, 2 sectors); in a second `vd_mount()` its
path does not resolve; afterwards the slot still holds handle, session, size
and sector count of the first binding. -/
theorem failed_rebind_keeps_stale_binding :
    (mountedOnce.diskinfo 0) = ⟨some 1, some 11, 1000, 2⟩ ∧
      (vd_mount p0 (worldOf unresolved) mountedOnce).diskinfo 0
        = ⟨some 1, some 11, 1000, 2⟩ ∧
      (vd_mount p0 (worldOf unresolved) mountedOnce).diskinfo 0 ≠ DiskInfo.zero := by
  have h1 : mountedOnce.diskinfo 0 = ⟨some 1, some 11, 1000, 2⟩ := by
    unfold mountedOnce
    rw [vd_mount_diskinfo _ _ _ _ (by decide)]
    decide
  have h2 : (vd_mount p0 (worldOf unresolved) mountedOnce).diskinfo 0
      = ⟨some 1, some 11, 1000, 2⟩ := by
    rw [vd_mount_diskinfo _ _ _ _ (by decide), h1]
    decide
  refine ⟨h1, h2, ?_⟩
  rw [h2]
  decide

/-- C5 (amended): when the path of logical unit `i` fails to resolve or fails
the regular-file check during `vd_mount()`, afterwards `hdsinfo[i].disk` is
null, while the physical slot `diskinfo[i + off]` keeps the handle, session
and size it had before the call, with the sector count derived from that
size. -/
theorem failed_rebind_unlinks_unit (p : Params) (w : World) (s : State) (i : Nat)
    (hN : p.N_HDS ≤ 6) (hi : i < p.N_HDS)
    (hf : (w.hds i).resolve = none ∨ ¬ ∃ sz, (w.hds i).stat = some (SMB2_TYPE_FILE, sz)) :
    (vd_mount p w s).hdsinfo i = none ∧
      ((vd_mount p w s).diskinfo (bootOffset w + i)).sfh = (s.diskinfo (bootOffset w + i)).sfh ∧
      ((vd_mount p w s).diskinfo (bootOffset w + i)).smb2 = (s.diskinfo (bootOffset w + i)).smb2 ∧
      ((vd_mount p w s).diskinfo (bootOffset w + i)).size = (s.diskinfo (bootOffset w + i)).size ∧
      ((vd_mount p w s).diskinfo (bootOffset w + i)).sects
        = sectsOf p (s.diskinfo (bootOffset w + i)).size := by
  have hb := bootOffset_le w
  have hj : bootOffset w + i < 7 := by omega
  have hc : bootOffset w ≤ bootOffset w + i ∧ bootOffset w + i < bootOffset w + p.N_HDS := by
    omega
  have hnb : ¬ (w.hds i).bound = true := by
    rw [bound_iff]
    rintro ⟨smb2, path, sz, h, hr, hs, _⟩
    rcases hf with hf | hf
    · simp [hr] at hf
    · exact hf ⟨sz, hs⟩
  rw [vd_mount_hdsinfo, vd_mount_diskinfo p w s _ hj, if_pos hc, Nat.add_sub_cancel_left,
    slotAfter_unresolved p _ _ hf]
  simp [hi, hnb, withSects]

/-- Witness of `failed_rebind_unlinks_unit`: a second run, on a bound slot,
in which the path does not resolve. -/
theorem failed_rebind_unlinks_unit_witness :
    p0.N_HDS ≤ 6 ∧ (0 : Nat) < p0.N_HDS ∧
      (vd_mount p0 (worldOf unresolved) mountedOnce).hdsinfo 0 = none :=
  have hN : p0.N_HDS ≤ 6 := by decide
  have hi : (0 : Nat) < p0.N_HDS := by decide
  ⟨hN, hi, (failed_rebind_unlinks_unit p0 (worldOf unresolved) mountedOnce 0 hN hi
    (Or.inl rfl)).1⟩

/-- C10: with `off = 1` when the boot-offset flag `atoi(config.remoteboot)`
is non-zero and `off = 0` otherwise, for every logical unit `i < N_HDS` after
`vd_mount()`: `hdsinfo[i].disk` is non-null exactly when resolve, regular-file
check and open succeeded for `config.hds[i]`, and then it refers to
`diskinfo[i + off]` and to no other slot; distinct logical units never refer
to the same physical slot; the index `i + off` is below 7 and no store outside
`diskinfo[7]` is made (given `N_HDS ≤ 6`); and when `off = 1`, handle, session
and size of `diskinfo[0]` are unchanged. -/
theorem hdsinfo_links (p : Params) (w : World) (s : State) (off : Nat)
    (hN : p.N_HDS ≤ 6) (hoff : off = if w.remoteboot ≠ 0 then 1 else 0) :
    (∀ i, i < p.N_HDS →
        ((vd_mount p w s).hdsinfo i ≠ none ↔ (w.hds i).bound = true) ∧
        (∀ x, (vd_mount p w s).hdsinfo i = some x ↔
          ((w.hds i).bound = true ∧ x = i + off)) ∧
        (∀ i2, i2 < p.N_HDS → i2 ≠ i → ∀ x, (vd_mount p w s).hdsinfo i = some x →
          (vd_mount p w s).hdsinfo i2 ≠ some x) ∧
        i + off < 7) ∧
      (vd_mount p w s).disk_oob = s.disk_oob ∧
      (off = 1 →
        ((vd_mount p w s).diskinfo 0).sfh = (s.diskinfo 0).sfh ∧
        ((vd_mount p w s).diskinfo 0).smb2 = (s.diskinfo 0).smb2 ∧
        ((vd_mount p w s).diskinfo 0).size = (s.diskinfo 0).size) ∧
      (w.remoteboot ≠ 0 → off = 1) ∧ (w.remoteboot = 0 → off = 0) := by
  have hbo : bootOffset w = off := by rw [hoff]; rfl
  have hb : off ≤ 1 := hbo ▸ bootOffset_le w
  refine ⟨?_, vd_mount_disk_oob p w s hN, ?_, ?_, ?_⟩
  · intro i hi
    refine ⟨?_, ?_, ?_, by omega⟩
    · rw [vd_mount_hdsinfo]
      by_cases h : (w.hds i).bound = true <;> simp [hi, h]
    · intro x
      rw [vd_mount_hdsinfo, hbo]
      by_cases h : (w.hds i).bound = true <;> simp [hi, h]
      · constructor <;> intro h2 <;> omega
    · intro i2 hi2 hne x hx
      rw [vd_mount_hdsinfo, hbo] at hx ⊢
      by_cases h : (w.hds i).bound = true <;> simp [hi, h] at hx
      by_cases h2 : (w.hds i2).bound = true <;> simp [hi2, h2]
      omega
  · intro h1
    rw [vd_mount_diskinfo p w s 0 (by decide), hbo]
    simp [h1, withSects]
  · intro h; simp [hoff, h]
  · intro h; simp [hoff, h]

/-- Witness of `hdsinfo_links` with the sample constants and a non-zero
boot-offset flag: unit 0 is linked to `diskinfo[1]`, and `diskinfo[0]` keeps
its handle. -/
theorem hdsinfo_links_witness :
    p0.N_HDS ≤ 6 ∧ (1 = if (worldBootOf (fileOk 2 22 2048)).remoteboot ≠ 0 then 1 else 0) ∧
      (vd_mount p0 (worldBootOf (fileOk 2 22 2048)) mountedOnce).hdsinfo 0 = some 1 ∧
      ((vd_mount p0 (worldBootOf (fileOk 2 22 2048)) mountedOnce).diskinfo 0).sfh
        = (mountedOnce.diskinfo 0).sfh :=
  have hN : p0.N_HDS ≤ 6 := by decide
  have hoff : 1 = if (worldBootOf (fileOk 2 22 2048)).remoteboot ≠ 0 then 1 else 0 := by
    decide
  ⟨hN, hoff,
    (((hdsinfo_links p0 (worldBootOf (fileOk 2 22 2048)) mountedOnce 1 hN hoff).1 0
      (by decide)).2.1 1).mpr ⟨by decide, by decide⟩,
    ((hdsinfo_links p0 (worldBootOf (fileOk 2 22 2048)) mountedOnce 1 hN hoff).2.2.1 rfl).1⟩

/-! ## `vd_mount`: sector counts -/

theorem ceil_div_spec (size S : Nat) (hS : 0 < S) :
    size ≤ (size + S - 1) / S * S ∧
      (0 < size → ((size + S - 1) / S - 1) * S < size) ∧
      (size = 0 → (size + S - 1) / S = 0) := by
  have h1 := Nat.div_add_mod (size + S - 1) S
  have h2 := Nat.mod_lt (size + S - 1) hS
  have h3 : (size + S - 1) / S * S = S * ((size + S - 1) / S) := Nat.mul_comm _ _
  have h4 : ((size + S - 1) / S - 1) * S = S * ((size + S - 1) / S) - S := by
    rw [Nat.sub_mul, Nat.one_mul, Nat.mul_comm]
  refine ⟨?_, ?_, ?_⟩
  · rw [h3]; omega
  · intro hpos; rw [h4]; omega
  · intro h0
    subst h0
    exact Nat.div_eq_of_lt (by omega)

/-- C9 (as stated, refuted): a disk image whose byte length is the largest
value of a 64-bit `size` field gets sector count 0 from `vd_mount()`, because
`size + SECTOR_SIZE - 1` wraps (the same at the largest value of a 32-bit
field, and with a 64-bit `sects`); and a slot that was bound by an earlier run
and whose `smb2_open` fails in this run has no handle and sector count 2. -/
theorem sector_count_wraps :
    (vd_mount p0 (worldOf (fileOk 1 11 (2 ^ 64 - 1))) State.boot).diskinfo 0
        = ⟨some 1, some 11, 2 ^ 64 - 1, 0⟩ ∧
      ¬ (2 ^ 64 - 1 ≤ ((vd_mount p0 (worldOf (fileOk 1 11 (2 ^ 64 - 1))) State.boot).diskinfo
          0).sects * p0.SECTOR_SIZE) ∧
      sectsOf ⟨4, 8, 512, 32, 32⟩ (2 ^ 32 - 1) = 0 ∧
      sectsOf ⟨4, 8, 512, 64, 64⟩ (2 ^ 64 - 1) = 0 ∧
      (vd_mount p0 (worldOf (openFails 1 1000)) mountedOnce).diskinfo 0
        = ⟨some 1, none, 1000, 2⟩ := by
  have h1 : (vd_mount p0 (worldOf (fileOk 1 11 (2 ^ 64 - 1))) State.boot).diskinfo 0
      = ⟨some 1, some 11, 2 ^ 64 - 1, 0⟩ := by
    rw [vd_mount_diskinfo _ _ _ _ (by decide)]
    decide
  have h2 : mountedOnce.diskinfo 0 = ⟨some 1, some 11, 1000, 2⟩ := by
    unfold mountedOnce
    rw [vd_mount_diskinfo _ _ _ _ (by decide)]
    decide
  refine ⟨h1, ?_, by decide, by decide, ?_⟩
  · rw [h1]; decide
  · rw [vd_mount_diskinfo _ _ _ _ (by decide), h2]
    decide

/-- C9 (amended): after `vd_mount()`, for each of the 7 slots of `diskinfo`
the sector count is `(size + SECTOR_SIZE - 1) / SECTOR_SIZE` computed in the
width of `size` and stored in the width of `sects`; it equals the mathematical
ceiling of `size / SECTOR_SIZE` whenever `size + SECTOR_SIZE - 1` fits the
`size` field and the quotient fits the `sects` field; and when `vd_mount()`
starts from the all-zero `diskinfo` table, every slot with no handle has
sector count 0. -/
theorem sector_count_ceiling (p : Params) (w : World) (s : State) (j : Nat)
    (hj : j < 7) (hS : 0 < p.SECTOR_SIZE) :
    ((vd_mount p w s).diskinfo j).sects = sectsOf p ((vd_mount p w s).diskinfo j).size ∧
      (((vd_mount p w s).diskinfo j).size + p.SECTOR_SIZE - 1 < 2 ^ p.sizeBits →
        (((vd_mount p w s).diskinfo j).size + p.SECTOR_SIZE - 1) / p.SECTOR_SIZE
          < 2 ^ p.sectsBits →
        ((vd_mount p w s).diskinfo j).size
            ≤ ((vd_mount p w s).diskinfo j).sects * p.SECTOR_SIZE ∧
          (0 < ((vd_mount p w s).diskinfo j).size →
            (((vd_mount p w s).diskinfo j).sects - 1) * p.SECTOR_SIZE
              < ((vd_mount p w s).diskinfo j).size) ∧
          (((vd_mount p w s).diskinfo j).size = 0 →
            ((vd_mount p w s).diskinfo j).sects = 0)) ∧
      ((∀ j, s.diskinfo j = DiskInfo.zero) →
        ((vd_mount p w s).diskinfo j).sfh = none →
        ((vd_mount p w s).diskinfo j).sects = 0) := by
  have hsects : ((vd_mount p w s).diskinfo j).sects
      = sectsOf p ((vd_mount p w s).diskinfo j).size := by
    rw [vd_mount_diskinfo p w s j hj]
    simp [withSects]
  refine ⟨hsects, ?_, ?_⟩
  · intro h1 h2
    rw [hsects]
    unfold sectsOf
    rw [Nat.mod_eq_of_lt h1, Nat.mod_eq_of_lt h2]
    exact ceil_div_spec _ _ hS
  · intro hd hnone
    have hsize : ((vd_mount p w s).diskinfo j).size = 0 := by
      rw [vd_mount_diskinfo p w s j hj, hd j] at hnone ⊢
      by_cases hc : bootOffset w ≤ j ∧ j < bootOffset w + p.N_HDS
      · simp only [if_pos hc, withSects] at hnone ⊢
        by_cases hb : (w.hds (j - bootOffset w)).bound = true
        · obtain ⟨smb2, path, sz, h, hr, hs, ho⟩ := (bound_iff _).mp hb
          rw [slotAfter_bound p _ _ smb2 path sz h hr hs ho] at hnone
          simp at hnone
        · exact (slotAfter_zero_unbound p _ (by simpa using hb)).2
      · simp [hc, withSects, DiskInfo.zero]
    rw [hsects, hsize]
    unfold sectsOf
    have h0 : (0 + p.SECTOR_SIZE - 1) % 2 ^ p.sizeBits / p.SECTOR_SIZE = 0 :=
      Nat.div_eq_of_lt (lt_of_le_of_lt (Nat.mod_le _ _) (by omega))
    rw [h0]
    exact Nat.zero_mod _

/-- Witness of `sector_count_ceiling`: a 1000-byte image has 2 sectors of 512
bytes. -/
theorem sector_count_ceiling_witness :
    (0 : Nat) < 7 ∧ 0 < p0.SECTOR_SIZE ∧
      ((vd_mount p0 (worldOf (fileOk 1 11 1000)) State.boot).diskinfo 0).sects
        = sectsOf p0 ((vd_mount p0 (worldOf (fileOk 1 11 1000)) State.boot).diskinfo 0).size :=
  have hj : (0 : Nat) < 7 := by decide
  have hS : 0 < p0.SECTOR_SIZE := by decide
  ⟨hj, hS, (sector_count_ceiling p0 (worldOf (fileOk 1 11 1000)) State.boot 0 hj hS).1⟩

/-! ## `vd_mount`: file handles -/

theorem foldl_openStep_mem (new : List Event) (hnew : ∀ ev ∈ new, isRelease ev = false)
    (h : Nat) :
    ∀ acc : List Nat, (h ∈ acc ∨ Event.smb2_open (some h) ∈ new) →
      h ∈ new.foldl openStep acc := by
  induction new with
  | nil => intro acc hm; simpa using hm
  | cons ev new ih =>
    intro acc hm
    rw [List.foldl_cons]
    apply ih (fun e he => hnew e (List.mem_cons_of_mem _ he))
    have hev := hnew ev (List.mem_cons_self _ _)
    rcases hm with hm | hm
    · left
      cases ev <;> simp_all [openStep, isRelease]
      rename_i r
      cases r <;> simp_all
    · rcases List.mem_cons.mp hm with rfl | hm
      · left; simp [openStep]
      · right; exact hm

theorem openHandles_append (old new : List Event)
    (hnew : ∀ ev ∈ new, isRelease ev = false) (h : Nat)
    (hm : h ∈ openHandles old ∨ Event.smb2_open (some h) ∈ new) :
    h ∈ openHandles (old ++ new) := by
  unfold openHandles at hm ⊢
  rw [List.foldl_append]
  exact foldl_openStep_mem new hnew h _ hm

theorem hdsEvents_noRelease (o : PathOutcome) : ∀ ev ∈ hdsEvents o, isRelease ev = false := by
  unfold hdsEvents
  rcases hr : o.resolve with _ | ⟨smb2, path⟩
  · simp [isRelease]
  · rcases hs : o.stat with _ | ⟨ty, sz⟩
    · simp [isRelease]
    · cases ty <;> simp [isRelease]

theorem hdsLoopEvents_noRelease (w : World) (k : Nat) :
    ∀ i, ∀ ev ∈ hdsLoopEvents w i k, isRelease ev = false := by
  induction k with
  | zero => intro i ev h; simp [hdsLoopEvents] at h
  | succ k ih =>
    intro i ev h
    simp only [hdsLoopEvents, List.mem_append] at h
    rcases h with h | h
    · exact hdsEvents_noRelease _ ev h
    · exact ih (i + 1) ev h

theorem remoteLoopEvents_noRelease (w : World) (k : Nat) :
    ∀ i, ∀ ev ∈ remoteLoopEvents w i k, isRelease ev = false := by
  induction k with
  | zero => intro i ev h; simp [remoteLoopEvents] at h
  | succ k ih =>
    intro i ev h
    simp only [remoteLoopEvents, List.mem_append] at h
    rcases h with h | h
    · unfold remoteEvents at h
      rcases hr : (w.remote i).resolve with _ | ⟨smb2, path⟩ <;> simp [hr] at h <;>
        rcases h with rfl | rfl <;> rfl
    · exact ih (i + 1) ev h

theorem mountEvents_noRelease (p : Params) (w : World) :
    ∀ ev ∈ mountEvents p w, isRelease ev = false := by
  intro ev h
  simp only [mountEvents, List.mem_append, List.mem_singleton] at h
  rcases h with (h | h) | rfl
  · exact remoteLoopEvents_noRelease w _ 0 ev h
  · exact hdsLoopEvents_noRelease w _ 0 ev h
  · rfl

theorem hdsLoopEvents_open (w : World) (k : Nat) :
    ∀ i u, i ≤ u → u < i + k → (w.hds u).bound = true →
      Event.smb2_open (w.hds u).sfh ∈ hdsLoopEvents w i k := by
  induction k with
  | zero => intro i u h1 h2; omega
  | succ k ih =>
    intro i u h1 h2 hb
    simp only [hdsLoopEvents, List.mem_append]
    by_cases hu : u = i
    · subst hu
      left
      obtain ⟨smb2, path, sz, h, hr, hs, ho⟩ := (bound_iff _).mp hb
      simp [hdsEvents, hr, hs]
    · right
      exact ih (i + 1) u (by omega) (by omega) hb

/-- C4 (as stated, refuted): `diskinfo[0]` is bound to handle 11 by a first
`vd_mount()` and to handle 22 by a second; the second run logs no
`smb2_close`, and afterwards handles 11 and 22 are both open although
`diskinfo[0]` holds 22 only. -/
theorem rebind_leaks_first_handle :
    (mountedOnce.diskinfo 0).sfh = some 11 ∧
      (mountedTwice.diskinfo 0).sfh = some 22 ∧
      eventsOf mountedOnce mountedTwice
        = [Event.connect_smb2_path, Event.smb2_stat, Event.smb2_open (some 22),
           Event.connect_smb2_path, Event.connect_smb2_path, Event.connect_smb2_path,
           Event.store STAT_CONFIGURED] ∧
      openHandles mountedTwice.log = [11, 22] ∧
      openHandles mountedTwice.log ≠ [22] := by
  have h1 : mountedOnce.diskinfo 0 = ⟨some 1, some 11, 1000, 2⟩ := by
    unfold mountedOnce
    rw [vd_mount_diskinfo _ _ _ _ (by decide)]
    decide
  have hl : mountedOnce.log
      = [Event.connect_smb2_path, Event.smb2_stat, Event.smb2_open (some 11),
         Event.connect_smb2_path, Event.connect_smb2_path, Event.connect_smb2_path,
         Event.store STAT_CONFIGURED] := by
    unfold mountedOnce
    rw [vd_mount_log]
    decide
  have h2 : mountedTwice.log = mountedOnce.log ++
      [Event.connect_smb2_path, Event.smb2_stat, Event.smb2_open (some 22),
       Event.connect_smb2_path, Event.connect_smb2_path, Event.connect_smb2_path,
       Event.store STAT_CONFIGURED] := by
    unfold mountedTwice
    rw [vd_mount_log]
    decide
  have h3 : openHandles mountedTwice.log = [11, 22] := by
    rw [h2, hl]; decide
  refine ⟨by rw [h1], ?_, eventsOf_of_log _ _ _ h2, h3, ?_⟩
  · unfold mountedTwice
    rw [vd_mount_diskinfo _ _ _ _ (by decide), h1]
    decide
  · rw [h3]; decide

/-- C4 (amended): `vd_mount()` releases nothing: it makes no `smb2_close` and
no `disconnect_smb2` call, so every handle open before the call is open after
it. When a slot that holds open handle `h1` is bound by the run to a different
handle `h2`, afterwards `diskinfo` holds `h2` in place of `h1`, and both `h1`
and `h2` are open. -/
theorem rebind_keeps_old_handle_open (p : Params) (w : World) (s : State) (i h1 h2 : Nat)
    (hN : p.N_HDS ≤ 6) (hi : i < p.N_HDS)
    (hold : (s.diskinfo (bootOffset w + i)).sfh = some h1)
    (hopen : h1 ∈ openHandles s.log)
    (hb : (w.hds i).bound = true) (hnew : (w.hds i).sfh = some h2) (hne : h1 ≠ h2) :
    (∀ ev ∈ eventsOf s (vd_mount p w s), isRelease ev = false) ∧
      (∀ h ∈ openHandles s.log, h ∈ openHandles (vd_mount p w s).log) ∧
      ((vd_mount p w s).diskinfo (bootOffset w + i)).sfh = some h2 ∧
      ((vd_mount p w s).diskinfo (bootOffset w + i)).sfh
        ≠ (s.diskinfo (bootOffset w + i)).sfh ∧
      h1 ∈ openHandles (vd_mount p w s).log ∧
      h2 ∈ openHandles (vd_mount p w s).log := by
  have hb1 := bootOffset_le w
  have hlog := vd_mount_log p w s
  have hnr := mountEvents_noRelease p w
  have hj : bootOffset w + i < 7 := by omega
  have hc : bootOffset w ≤ bootOffset w + i ∧ bootOffset w + i < bootOffset w + p.N_HDS := by
    omega
  have hmono : ∀ h ∈ openHandles s.log, h ∈ openHandles (vd_mount p w s).log := by
    intro h hm
    rw [hlog]
    exact openHandles_append _ _ hnr h (Or.inl hm)
  have hsfh : ((vd_mount p w s).diskinfo (bootOffset w + i)).sfh = some h2 := by
    obtain ⟨smb2, path, sz, h, hr, hs, ho⟩ := (bound_iff _).mp hb
    rw [vd_mount_diskinfo p w s _ hj, if_pos hc, Nat.add_sub_cancel_left,
      slotAfter_bound p _ _ smb2 path sz h hr hs ho]
    simp [withSects, ← hnew, ho]
  refine ⟨?_, hmono, hsfh, ?_, hmono h1 hopen, ?_⟩
  · rw [eventsOf_of_log s _ _ hlog]
    exact hnr
  · rw [hsfh, hold]
    exact fun h => hne (Option.some.inj h).symm
  · rw [hlog]
    apply openHandles_append _ _ hnr h2 (Or.inr ?_)
    have := hdsLoopEvents_open w p.N_HDS 0 i (by omega) (by omega) hb
    rw [hnew] at this
    simp [mountEvents, this]

/-- Witness of `rebind_keeps_old_handle_open`: a slot bound to handle 11 is
bound to handle 22 by a second run. -/
theorem rebind_keeps_old_handle_open_witness :
    p0.N_HDS ≤ 6 ∧ (11 : Nat) ≠ 22 ∧
      11 ∈ openHandles (vd_mount p0 (worldOf (fileOk 2 22 2048)) mountedOnce).log :=
  have hN : p0.N_HDS ≤ 6 := by decide
  have hne : (11 : Nat) ≠ 22 := by decide
  have h1 : mountedOnce.diskinfo 0 = ⟨some 1, some 11, 1000, 2⟩ := by
    unfold mountedOnce
    rw [vd_mount_diskinfo _ _ _ _ (by decide)]
    decide
  have hl : 11 ∈ openHandles mountedOnce.log := by
    unfold mountedOnce
    rw [vd_mount_log]
    decide
  ⟨hN, hne, (rebind_keeps_old_handle_open p0 (worldOf (fileOk 2 22 2048)) mountedOnce 0 11 22
    hN (by decide) (by show (mountedOnce.diskinfo 0).sfh = some 11; rw [h1]) hl (by decide) (by decide) hne).2.2.2.2.1⟩

/-! ## `struct zusb_rmtdata` -/

theorem toBytes_eq (r : zusb_rmtdata) :
    r.toBytes = [r.zusb_ch, r.hds_changed, r.hds_ready, r.rmtflag,
      r.hds_parts 0, r.hds_parts 1, r.hds_parts 2, r.hds_parts 3] := rfl

/-- C6: `struct zusb_rmtdata` is 8 bytes, with `zusb_ch` at byte 0,
`hds_changed` at byte 1, `hds_ready` at byte 2, `rmtflag` at byte 3 (bit 0 the
patch flag, bit 7 the RTC adjust flag) and `hds_parts[0..3]` at bytes 4..7;
the record with `hds_changed = 1`, `hds_ready = 0`, patch flag set, RTC adjust
flag clear and `hds_parts = [2,0,0,0]` has the byte image
`[ch, 1, 0, 0x01, 2, 0, 0, 0]`; and reading the bytes back member by member
returns the record that was written. -/
theorem zusb_rmtdata_layout (r : zusb_rmtdata) (ch : Fin 256) (patch rtc : Bool) :
    structSize zusb_rmtdata_members = 8 ∧
      memberOffsets 0 zusb_rmtdata_members = [0, 1, 2, 3, 4] ∧
      r.toBytes.length = 8 ∧
      r.toBytes = [r.zusb_ch, r.hds_changed, r.hds_ready, r.rmtflag,
        r.hds_parts 0, r.hds_parts 1, r.hds_parts 2, r.hds_parts 3] ∧
      (zusb_rmtdata.mk ch 1 0 (rmtflagOf true false) (partsOf 2 0 0 0)).toBytes
        = [ch, 1, 0, 0x01, 2, 0, 0, 0] ∧
      ((rmtflagOf patch rtc).val.testBit 0 = patch ∧
        (rmtflagOf patch rtc).val.testBit 7 = rtc) ∧
      zusb_rmtdata.fromBytes r.toBytes = some r := by
  refine ⟨by decide, by decide, by rw [toBytes_eq]; rfl, toBytes_eq r, rfl, ?_, ?_⟩
  · cases patch <;> cases rtc <;> decide
  · rw [toBytes_eq]
    obtain ⟨a, b, c, d, f⟩ := r
    simp only [zusb_rmtdata.fromBytes]
    have hs : structSize zusb_rmtdata_members = 8 := by decide
    rw [if_pos (by rw [hs]; rfl)]
    congr 2
    funext i
    fin_cases i <;> rfl

end X68kRmtDsk
